import Mathlib

/-!
Verification of the txttrim message-compaction service (`app.py`) against its
natural-language specification.  The Python source is shallowly embedded:

* strings are `String` / `List Char`, with Python's `str.strip`, `str.rstrip`
  and slicing reproduced as explicit list functions;
* the regex scan `https?://\S+` of `re.findall` / `re.sub` is reproduced as a
  fuel-indexed left-to-right maximal-munch scanner (fuel = length of the text,
  which bounds the number of scan steps, so the scan is total and executable);
* the two external collaborators (the is.gd URL-shortening HTTP call and the
  chat-completion oracle) are parameters: an environment mapping each requested
  URL to an optional HTTP result, and a function from the composed prompt to
  either a failure message or an optional response content;
* the stats file is threaded as an explicit `Stats` value;
* Python ints are `Int` (`max_chars` may be negative, and slicing follows
  Python's negative-index semantics); float cost arithmetic is modelled exactly
  over `ℚ` (the claims under study do not depend on float rounding).
-/

set_option autoImplicit false

/-- Characters treated as whitespace by Python's `str.strip()` and by `\S`
in the URL regex (ASCII fragment; the claims only exercise these). -/
def isPySpace (c : Char) : Bool :=
  c == ' ' || c == '\t' || c == '\n' || c == '\r' || c == '\x0b' || c == '\x0c'

/-- Python `str.strip()` on the underlying character list. -/
def pyStripChars (l : List Char) : List Char :=
  ((l.dropWhile isPySpace).reverse.dropWhile isPySpace).reverse

/-- Python `str.strip()`. -/
def pyStrip (s : String) : String :=
  ⟨pyStripChars s.data⟩

/-- Python `str.rstrip(cut)`: remove trailing characters belonging to `cut`. -/
def pyRstrip (cut : List Char) (s : String) : String :=
  ⟨(s.data.reverse.dropWhile (fun c => cut.contains c)).reverse⟩

/-- Python slicing `s[:k]` with an `int` bound: a nonnegative `k` keeps the
first `k` characters, a negative `k` drops the last `-k` characters. -/
def pySliceTo (s : String) (k : Int) : String :=
  if 0 ≤ k then ⟨s.data.take k.toNat⟩
  else ⟨s.data.take (s.data.length - (-k).toNat)⟩

/-- `_sms_fragments(length, frag_size)` from `app.py`:
`(length + frag_size - 1) // frag_size`. -/
def sms_fragments (length frag_size : Nat) : Nat :=
  (length + frag_size - 1) / frag_size

/-- `SMS_COST_PER_FRAGMENT = 0.0225` (modelled exactly in `ℚ`). -/
def SMS_COST_PER_FRAGMENT : ℚ := 225 / 10000

/-! ### The URL scan `https?://\S+` -/

/-- Length of the scheme matched by `https?://` at the head of `l`, if any.
(For the pattern `https?://` a match at a given position is exactly: the text
starts with `https://`, or it starts with `http://`.) -/
def schemeLen (l : List Char) : Option Nat :=
  if List.isPrefixOf "https://".data l then some 8
  else if List.isPrefixOf "http://".data l then some 7
  else none

/-- Length of the token matched by `https?://\S+` at the head of `l`, if any:
the scheme followed by a maximal nonempty run of non-whitespace characters. -/
def urlTokenLen (l : List Char) : Option Nat :=
  match schemeLen l with
  | none => none
  | some k =>
    let body := (l.drop k).takeWhile (fun c => !(isPySpace c))
    if body.length = 0 then none else some (k + body.length)

/-- Left-to-right non-overlapping scan collecting all tokens matched by
`https?://\S+`, as `re.findall` does.  `fuel` bounds the number of steps; each
step consumes at least one character, so `fuel = l.length` is exact. -/
def scanUrlsF : Nat → List Char → List (List Char)
  | 0, _ => []
  | _ + 1, [] => []
  | fuel + 1, c :: rest =>
    match urlTokenLen (c :: rest) with
    | none => scanUrlsF fuel rest
    | some n => (c :: rest).take n :: scanUrlsF fuel ((c :: rest).drop n)

/-- Left-to-right non-overlapping substitution of every token matched by
`https?://\S+` with `f token`, as `url_pattern.sub(repl, text)` does. -/
def subUrlsF (f : List Char → List Char) : Nat → List Char → List Char
  | 0, l => l
  | _ + 1, [] => []
  | fuel + 1, c :: rest =>
    match urlTokenLen (c :: rest) with
    | none => c :: subUrlsF f fuel rest
    | some n => f ((c :: rest).take n) ++ subUrlsF f fuel ((c :: rest).drop n)

/-- The cache-building loop `for u in urls: if u not in cache: ...` invokes the
shortener once per first occurrence, in order; `seen` is the set of cache keys
already present. -/
def firstDedupAux (seen : List (List Char)) : List (List Char) → List (List Char)
  | [] => []
  | u :: rest =>
    if u ∈ seen then firstDedupAux seen rest
    else u :: firstDedupAux (u :: seen) rest

/-! ### URL shortening via is.gd -/

/-- Outcome of the `SESSION.get` call in `_shorten_with_isgd`: `none` models a
raised exception (transport error / timeout), `some` an HTTP response. -/
structure HttpResult where
  status : Nat
  text : String
deriving DecidableEq

/-- `_shorten_with_isgd(url)`: returns the stripped response body when the
status is 200 and the body starts with `"http"`, otherwise `None`.  The HTTP
outcome for the call is passed as `resp`. -/
def shorten_with_isgd (resp : Option HttpResult) : Option String :=
  match resp with
  | none => none
  | some r =>
    if r.status = 200 && List.isPrefixOf "http".data r.text.data
    then some (pyStrip r.text) else none

/-- `shorten_single_url(url)`: `short or url` — fall back to the original URL
when the shortener failed (or returned a falsy empty string). -/
def shorten_single_url (resp : Option HttpResult) (url : String) : String :=
  match shorten_with_isgd resp with
  | none => url
  | some s => if s = "" then url else s

/-- `shorten_urls_in_text(text)`.  `env` gives the HTTP outcome of the is.gd
call for each URL.  Returns the substituted text together with the list of
URLs actually sent to the shortening oracle (the cache-miss sequence, in
order).  Every token found by `url_pattern.sub` was found by
`url_pattern.findall` as well, so `cache.get(u, u)` is exactly
`shorten_single_url` applied to the token. -/
def shorten_urls_in_text (env : String → Option HttpResult) (text : String) :
    String × List String :=
  let urls := scanUrlsF text.data.length text.data
  let calls := firstDedupAux [] urls
  let f : List Char → List Char := fun u => (shorten_single_url (env ⟨u⟩) ⟨u⟩).data
  (⟨subUrlsF f text.data.length text.data⟩, calls.map (fun l => ⟨l⟩))

/-! ### The `/shorten` request handler -/

/-- The JSON body of a `/shorten` request, with the defaults of `app.py`
already applied (`data.get(...)`); a missing `text` is the empty string.
The handler reads only `text`, `max_chars`, `shorten_urls` and
`business_sector`; `protect_variables` and `target_language` appear in the
spec's data model but in no code path of `app.py`. -/
structure SmsRequest where
  text : String
  max_chars : Int
  shorten_urls : Bool
  business_sector : String
  protect_variables : Bool
  target_language : String
deriving DecidableEq

/-- The persisted `stats.json` contents. -/
structure Stats where
  total_sms_shortened : Nat
  total_characters_saved : Nat
  total_cost_saved : ℚ
deriving DecidableEq

/-- The JSON body of a successful `/shorten` response.  (`app.py` rounds
`cost_savings` to two decimals for display; the exact value is kept here.) -/
structure OkBody where
  original_text : String
  shortened_text : String
  original_length : Nat
  shortened_length : Nat
  characters_saved : Nat
  cost_savings : ℚ
  new_sms_count : Nat
deriving DecidableEq

/-- A `/shorten` response: a success body, or an HTTP error status with a
message (`400` for missing text, `500` for a compaction-oracle failure). -/
inductive SmsResponse where
  | ok (body : OkBody)
  | err (status : Nat) (message : String)
deriving DecidableEq

/-- Whether a response is an error response. -/
def isError : SmsResponse → Bool
  | .ok _ => false
  | .err _ _ => true

/-- The `sector_instruction` conditional expression of `shorten_sms`. -/
def sector_instruction (business_sector : String) : String :=
  if business_sector ≠ "" ∧ business_sector ≠ "General"
  then " Adjust the tone to suit the " ++ business_sector ++ " sector."
  else ""

/-- The prompt f-string of `shorten_sms`, verbatim. -/
def build_prompt (max_chars : Int) (business_sector processed_text : String) :
    String :=
  "\nYou are a precise SMS message shortener. Your task is to shorten the following message to an **absolute maximum of "
    ++ toString max_chars
    ++ " characters**. The shortened message must retain the original meaning and tone (UK English spelling).\n\n- Be as concise as possible.\n- If needed, remove manners, filler words, or punctuation.\n- If multiple links are included, all must remain in the final message.\n- Do NOT exceed "
    ++ toString max_chars
    ++ " characters under any circumstance.\n- Provide only the shortened SMS with no extra text or explanation.\n-"
    ++ sector_instruction business_sector
    ++ "\nOriginal message: "
    ++ processed_text
    ++ "\n"

/-- The `/shorten` handler `shorten_sms` of `app.py`.

`env` is the is.gd collaborator and `oracle` the chat-completion collaborator:
`oracle prompt` is `Except.error e` when the API call raises (the `except`
branch returns a 500 with `str(e)`), and `Except.ok content` on success, where
`content` is the optional `response.choices[0].message.content`.

Returns the response, the stats after the request, and the list of URLs sent
to the shortening oracle.  Notes tying the model to the source:
* `REMOVE_SCHEME_FOR_SHORTENERS` is `False` in `app.py`, so the
  `strip_scheme_from_shorteners` step is skipped by the handler;
* `(content or "")` equals `content.getD ""` on strings;
* `max(0, original_length - shortened_length)` on naturals is `Nat` truncated
  subtraction. -/
def shorten_sms (r : SmsRequest) (env : String → Option HttpResult)
    (oracle : String → Except String (Option String)) (stats : Stats) :
    SmsResponse × Stats × List String :=
  if r.text = "" then (.err 400 "No text provided", stats, [])
  else
    let pr := if r.shorten_urls then shorten_urls_in_text env r.text
              else (r.text, [])
    let processed_text := pr.1
    let prompt := build_prompt r.max_chars r.business_sector processed_text
    match oracle prompt with
    | .error e => (.err 500 e, stats, pr.2)
    | .ok content =>
      let candidate := pyStrip (content.getD "")
      let shortened_text :=
        if r.max_chars < (candidate.data.length : Int)
        then pyRstrip ['.', ' ', ','] (pySliceTo candidate r.max_chars)
        else candidate
      let original_length := processed_text.data.length
      let shortened_length := shortened_text.data.length
      let characters_saved := original_length - shortened_length
      let original_sms_count := sms_fragments original_length 160
      let new_sms_count := sms_fragments shortened_length 160
      let cost_savings :=
        max 0 (((original_sms_count : ℚ) - (new_sms_count : ℚ))
                * SMS_COST_PER_FRAGMENT)
      (.ok { original_text := processed_text
             shortened_text := shortened_text
             original_length := original_length
             shortened_length := shortened_length
             characters_saved := characters_saved
             cost_savings := cost_savings
             new_sms_count := new_sms_count },
       { total_sms_shortened := stats.total_sms_shortened + 1
         total_characters_saved := stats.total_characters_saved + characters_saved
         total_cost_saved := stats.total_cost_saved + cost_savings },
       pr.2)

/-- Whether `needle` occurs as a contiguous run inside the second list. -/
def containsSub (needle : List Char) : List Char → Bool
  | [] => needle.isEmpty
  | c :: rest => List.isPrefixOf needle (c :: rest) || containsSub needle rest

/-- Modelled from the spec: the placeholder-protection directive — forbidding
the oracle from altering, deleting, or translating any substring enclosed in
square brackets — occurs in no code path of `app.py`.  Its presence in an
instruction block is detected by the occurrence of the word naming the bracket
delimiters, which any phrasing of the directive must contain. -/
def protection_directive_present (block : String) : Bool :=
  containsSub "bracket".data block.data

/-- Modelled from the spec: the URL normalization the spec describes —
stripping the trailing punctuation characters `.`, `,`, `;`, `!`, `?` from a
matched URL — occurs in no code path of `app.py`; it is defined here only to
state the claims that mention normalized URLs. -/
def rstrip_punct (s : String) : String :=
  pyRstrip ['.', ',', ';', '!', '?'] s

/-! ### Concrete fixtures for witnesses and counterexamples -/

/-- An is.gd environment in which every call raises. -/
def env0 : String → Option HttpResult := fun _ => none

/-- An is.gd environment answering every call with status 200 and body `s`. -/
def envConst (s : String) : String → Option HttpResult := fun _ => some ⟨200, s⟩

/-- A fresh stats file. -/
def stats0 : Stats := ⟨0, 0, 0⟩

/-- A request with the given text, budget and target language, the remaining
fields at their endpoint defaults (`protect_variables` true as the spec
defaults it). -/
def mkReq (t : String) (mc : Int) (lang : String) : SmsRequest :=
  { text := t, max_chars := mc, shorten_urls := false,
    business_sector := "General", protect_variables := true,
    target_language := lang }

/-- Projection of a success response body. -/
def respBody : SmsResponse → Option OkBody
  | .ok b => some b
  | .err _ _ => none

/-! ### Helper lemmas -/

theorem firstDedupAux_mem (l : List (List Char)) :
    ∀ (seen : List (List Char)) (u : List Char),
      u ∈ firstDedupAux seen l ↔ u ∈ l ∧ u ∉ seen := by
  induction l with
  | nil => intro seen u; simp [firstDedupAux]
  | cons v rest ih =>
    intro seen u
    by_cases hv : v ∈ seen
    · rw [firstDedupAux, if_pos hv, ih]
      constructor
      · rintro ⟨h1, h2⟩; exact ⟨List.mem_cons_of_mem v h1, h2⟩
      · rintro ⟨h1, h2⟩
        rcases List.mem_cons.1 h1 with h1 | h1
        · exact absurd (h1 ▸ hv) h2
        · exact ⟨h1, h2⟩
    · rw [firstDedupAux, if_neg hv]
      rw [List.mem_cons, ih]
      constructor
      · rintro (h1 | ⟨h1, h2⟩)
        · subst h1; exact ⟨List.mem_cons_self u rest, hv⟩
        · exact ⟨List.mem_cons_of_mem v h1, fun hx => h2 (List.mem_cons_of_mem v hx)⟩
      · rintro ⟨h1, h2⟩
        rcases List.mem_cons.1 h1 with h1 | h1
        · exact Or.inl h1
        · by_cases huv : u = v
          · exact Or.inl huv
          · exact Or.inr ⟨h1, by simp [List.mem_cons, huv, h2]⟩

theorem firstDedupAux_nodup (l : List (List Char)) :
    ∀ seen : List (List Char), (firstDedupAux seen l).Nodup := by
  induction l with
  | nil => intro seen; simp [firstDedupAux]
  | cons v rest ih =>
    intro seen
    by_cases hv : v ∈ seen
    · rw [firstDedupAux, if_pos hv]; exact ih seen
    · rw [firstDedupAux, if_neg hv]
      refine List.nodup_cons.mpr ⟨fun hmem => ?_, ih (v :: seen)⟩
      exact ((firstDedupAux_mem rest (v :: seen) v).1 hmem).2
        (List.mem_cons_self v seen)

theorem subUrlsF_id (f : List Char → List Char) (hf : ∀ u, f u = u) :
    ∀ (fuel : Nat) (l : List Char), subUrlsF f fuel l = l := by
  intro fuel
  induction fuel with
  | zero => intro l; rfl
  | succ n ih =>
    intro l
    cases l with
    | nil => rfl
    | cons c rest =>
      cases h : urlTokenLen (c :: rest) with
      | none => simp only [subUrlsF, h]; rw [ih]
      | some k =>
        simp only [subUrlsF, h]
        rw [hf, ih, List.take_append_drop]

theorem pyRstrip_length_le (cut : List Char) (s : String) :
    (pyRstrip cut s).data.length ≤ s.data.length := by
  simp only [pyRstrip]
  calc ((s.data.reverse.dropWhile fun c => cut.contains c).reverse).length
      = (s.data.reverse.dropWhile fun c => cut.contains c).length :=
        List.length_reverse _
    _ ≤ s.data.reverse.length := (List.dropWhile_sublist _).length_le
    _ = s.data.length := List.length_reverse _

theorem pySliceTo_length_le (s : String) (k : Int) (hk : 0 ≤ k) :
    ((pySliceTo s k).data.length : Int) ≤ k := by
  simp only [pySliceTo, if_pos hk]
  have h1 : (s.data.take k.toNat).length = min k.toNat s.data.length :=
    List.length_take k.toNat s.data
  have h2 : (k.toNat : Int) = k := Int.toNat_of_nonneg hk
  show ((s.data.take k.toNat).length : Int) ≤ k
  omega

theorem pyRstrip_empty (cut : List Char) : pyRstrip cut "" = "" := rfl

theorem pySliceTo_empty (k : Int) : pySliceTo "" k = "" := by
  unfold pySliceTo
  have hd : ("" : String).data = [] := rfl
  split <;> rw [hd] <;> simp [List.take_nil]

theorem shorten_sms_error_eq (r : SmsRequest) (env : String → Option HttpResult)
    (e : String) (stats : Stats) (h : r.text ≠ "") :
    shorten_sms r env (fun _ => Except.error e) stats =
      (.err 500 e, stats,
       (if r.shorten_urls then shorten_urls_in_text env r.text
        else (r.text, [])).2) := by
  simp only [shorten_sms, if_neg h]

theorem shorten_sms_ok_eq (r : SmsRequest) (env : String → Option HttpResult)
    (content : Option String) (stats : Stats) (h : r.text ≠ "") :
    shorten_sms r env (fun _ => Except.ok content) stats =
      (let pr := if r.shorten_urls then shorten_urls_in_text env r.text
                 else (r.text, []);
       let candidate := pyStrip (content.getD "");
       let shortened_text :=
         if r.max_chars < (candidate.data.length : Int)
         then pyRstrip ['.', ' ', ','] (pySliceTo candidate r.max_chars)
         else candidate;
       (SmsResponse.ok
         { original_text := pr.1
           shortened_text := shortened_text
           original_length := pr.1.data.length
           shortened_length := shortened_text.data.length
           characters_saved := pr.1.data.length - shortened_text.data.length
           cost_savings := max 0
             (((sms_fragments pr.1.data.length 160 : ℚ)
               - (sms_fragments shortened_text.data.length 160 : ℚ))
               * SMS_COST_PER_FRAGMENT)
           new_sms_count := sms_fragments shortened_text.data.length 160 },
        { total_sms_shortened := stats.total_sms_shortened + 1
          total_characters_saved := stats.total_characters_saved
            + (pr.1.data.length - shortened_text.data.length)
          total_cost_saved := stats.total_cost_saved + max 0
             (((sms_fragments pr.1.data.length 160 : ℚ)
               - (sms_fragments shortened_text.data.length 160 : ℚ))
               * SMS_COST_PER_FRAGMENT) },
        pr.2)) := by
  simp only [shorten_sms, if_neg h]

theorem shorten_sms_oracle_cases (r : SmsRequest)
    (env : String → Option HttpResult)
    (oracle : String → Except String (Option String)) (stats : Stats)
    (h : r.text ≠ "") :
    (∃ e, shorten_sms r env oracle stats
        = shorten_sms r env (fun _ => Except.error e) stats) ∨
    (∃ c, shorten_sms r env oracle stats
        = shorten_sms r env (fun _ => Except.ok c) stats) := by
  rcases hres : oracle (build_prompt r.max_chars r.business_sector
      (if r.shorten_urls then shorten_urls_in_text env r.text
       else (r.text, [])).1)
    with e | c
  · exact Or.inl ⟨e, by simp only [shorten_sms, if_neg h, hres]⟩
  · exact Or.inr ⟨c, by simp only [shorten_sms, if_neg h, hres]⟩


/-! ### Claims -/

/-- C1, counterexample: in
`"https://a.com https://a.com."` the same URL occurs twice, differing only in a
trailing period, yet the shortening oracle is invoked twice — once per verbatim
token — not once per normalized URL. -/
theorem C1_counterexample :
    ((shorten_urls_in_text env0 "https://a.com https://a.com.").2.filter
        (fun u => rstrip_punct u == "https://a.com")).length = 2 := by decide

/-- C1, amended: deduplication is by verbatim matched token, not by normalized
URL: the list of URLs sent to the shortening oracle has no duplicates, and it
contains exactly the tokens matched by the URL pattern — so each distinct
verbatim token (trailing punctuation included) is shortened exactly once and
all its verbatim occurrences reuse the one cached result. -/
theorem C1_dedup_by_verbatim_token (env : String → Option HttpResult)
    (text : String) :
    (shorten_urls_in_text env text).2.Nodup ∧
    ∀ u : String, u ∈ (shorten_urls_in_text env text).2 ↔
      u.data ∈ scanUrlsF text.data.length text.data := by
  constructor
  · show ((firstDedupAux [] (scanUrlsF text.data.length text.data)).map
      (fun l => (⟨l⟩ : String))).Nodup
    exact (firstDedupAux_nodup _ []).map (fun a b h => by injection h)
  · intro u
    show u ∈ (firstDedupAux [] (scanUrlsF text.data.length text.data)).map
      (fun l => (⟨l⟩ : String)) ↔ _
    rw [List.mem_map]
    constructor
    · rintro ⟨a, ha, rfl⟩
      exact ((firstDedupAux_mem _ [] a).1 ha).1
    · intro h
      exact ⟨u.data, (firstDedupAux_mem _ [] u.data).2 ⟨h, List.not_mem_nil _⟩, rfl⟩

/-- C3, counterexample: a request with `target_language = "French"` and
`max_chars = 1` whose oracle candidate is `"abc"` still gets hard-truncated to
`"a"` — the code has no language condition on the truncation. -/
theorem C3_counterexample :
    (mkReq "Hello world" 1 "French").target_language ≠ "English" ∧
    Option.map OkBody.shortened_text
        (respBody (shorten_sms (mkReq "Hello world" 1 "French") env0
          (fun _ => Except.ok (some "abc")) stats0).1) = some "a" := by decide

/-- C3, amended: `target_language` is never read by the handler, so the hard
character-cap truncation is applied for every target language exactly as for
English — the entire handler output is independent of `target_language`. -/
theorem C3_language_independent (r : SmsRequest)
    (env : String → Option HttpResult)
    (oracle : String → Except String (Option String)) (stats : Stats)
    (lang : String) :
    shorten_sms { r with target_language := lang } env oracle stats =
      shorten_sms r env oracle stats := rfl

/-- C4, counterexample: the fragment count of the empty string is `0`,
not `1`. -/
theorem C4_counterexample :
    sms_fragments ("" : String).data.length 160 = 0 ∧
    sms_fragments ("" : String).data.length 160 ≠ 1 := by decide

/-- C4, amended: for every text the fragment count equals
`ceil(len(text) / 160)`; in particular the empty string yields `0` fragments,
not `1`. -/
theorem C4_fragments_ceiling (text : String) :
    (sms_fragments text.data.length 160 : ℤ)
      = ⌈(text.data.length : ℚ) / 160⌉ ∧
    sms_fragments ("" : String).data.length 160 = 0 := by
  refine ⟨?_, by decide⟩
  set n := text.data.length with hn
  have h1 : n ≤ 160 * sms_fragments n 160 := by unfold sms_fragments; omega
  have h2 : 160 * sms_fragments n 160 < n + 160 := by unfold sms_fragments; omega
  have hq1 : (n : ℚ) ≤ 160 * (sms_fragments n 160 : ℚ) := by exact_mod_cast h1
  have hq2 : (160 : ℚ) * (sms_fragments n 160 : ℚ) < (n : ℚ) + 160 := by
    exact_mod_cast h2
  rw [eq_comm, Int.ceil_eq_iff]
  constructor
  · rw [lt_div_iff₀ (by norm_num : (0 : ℚ) < 160)]
    push_cast
    linarith [hq2]
  · rw [div_le_iff₀ (by norm_num : (0 : ℚ) < 160)]
    push_cast
    linarith [hq1]

/-- C5, counterexample: in `"See https://a.com."` the URL token sent to the
shortening oracle is `"https://a.com."` — trailing period included, i.e. not
equal to its normalized form — and after substitution the sentence-final
period is gone from the text instead of being preserved outside the link. -/
theorem C5_counterexample :
    (shorten_urls_in_text (envConst "http://x") "See https://a.com.").2
        = ["https://a.com."] ∧
    rstrip_punct "https://a.com." ≠ "https://a.com." ∧
    (shorten_urls_in_text (envConst "http://x") "See https://a.com.").1
        = "See http://x" := by decide

/-- C5, amended: no normalization is applied to matched URLs: the matched
token, trailing punctuation included, is sent verbatim to the shortening
oracle, and the entire token (punctuation included) is replaced by whatever
the oracle returns — for every oracle answer `s` accepted by
`_shorten_with_isgd` (a body starting with `"http"` and free of surrounding
whitespace), `"See https://a.com."` becomes `"See " ++ s` with no period
restored. -/
theorem C5_verbatim_token (s : String)
    (h1 : List.isPrefixOf "http".data s.data = true)
    (h2 : pyStrip s = s) :
    (shorten_urls_in_text (envConst s) "See https://a.com.").2
        = ["https://a.com."] ∧
    (shorten_urls_in_text (envConst s) "See https://a.com.").1
        = "See " ++ s := by
  have hne : s ≠ "" := by
    intro he; subst he; simp [List.isPrefixOf] at h1
  have hf : shorten_single_url (envConst s "https://a.com.") "https://a.com."
      = s := by
    simp [shorten_single_url, shorten_with_isgd, envConst, h1, h2, hne]
  refine ⟨rfl, ?_⟩
  have hsub : subUrlsF
      (fun u => (shorten_single_url (envConst s ⟨u⟩) ⟨u⟩).data)
      ("See https://a.com." : String).data.length
      ("See https://a.com." : String).data
      = "See ".data
        ++ ((shorten_single_url (envConst s "https://a.com.") "https://a.com.").data
              ++ []) := rfl
  show (⟨subUrlsF (fun u => (shorten_single_url (envConst s ⟨u⟩) ⟨u⟩).data)
      ("See https://a.com." : String).data.length
      ("See https://a.com." : String).data⟩ : String) = "See " ++ s
  rw [hsub, hf, List.append_nil]
  rfl

/-- C5, witness for the amended theorem at the concrete shortened URL
`"http://x"`. -/
theorem C5_verbatim_token_witness :
    (shorten_urls_in_text (envConst "http://x") "See https://a.com.").2
        = ["https://a.com."] ∧
    (shorten_urls_in_text (envConst "http://x") "See https://a.com.").1
        = "See " ++ "http://x" :=
  C5_verbatim_token "http://x" (by decide) (by decide)

set_option maxRecDepth 40000 in
/-- C7, counterexample: a request with `protect_variables = true` whose
composed instruction block contains no placeholder-protection directive — the
prompt never mentions bracketed placeholders. -/
theorem C7_counterexample :
    (mkReq "Your appointment is on [Date] at [Time]." 40 "English").protect_variables
        = true ∧
    protection_directive_present
      (build_prompt
        (mkReq "Your appointment is on [Date] at [Time]." 40 "English").max_chars
        (mkReq "Your appointment is on [Date] at [Time]." 40 "English").business_sector
        (mkReq "Your appointment is on [Date] at [Time]." 40 "English").text)
      = false := by decide

/-- C7, amended: no placeholder-protection directive exists in the code;
`protect_variables` is never read, so the composed instruction block — and the
entire handler behaviour — is identical whichever value the toggle has. -/
theorem C7_protect_independent (r : SmsRequest)
    (env : String → Option HttpResult)
    (oracle : String → Except String (Option String)) (stats : Stats)
    (b : Bool) :
    shorten_sms { r with protect_variables := b } env oracle stats =
      shorten_sms r env oracle stats := rfl

/-- C2, counterexample: when the oracle returns an empty content string the
request does not fail — the handler returns a success response and the usage
ledger is updated. -/
theorem C2_counterexample :
    isError (shorten_sms (mkReq "Hello there" 160 "English") env0
      (fun _ => Except.ok (some "")) stats0).1 = false ∧
    (shorten_sms (mkReq "Hello there" 160 "English") env0
      (fun _ => Except.ok (some "")) stats0).2.1 ≠ stats0 := by decide

/-- C2, amended: empty or missing response content is not treated as an
error: the candidate becomes the empty string, the request succeeds with an
empty `shortened_text`, and the ledger IS updated.  Only a raised exception in
the oracle call produces an error response. -/
theorem C2_empty_content_succeeds (r : SmsRequest)
    (env : String → Option HttpResult) (content : Option String)
    (stats : Stats) (h : r.text ≠ "")
    (hc : pyStrip (content.getD "") = "") :
    ∃ body : OkBody,
      (shorten_sms r env (fun _ => Except.ok content) stats).1 = .ok body ∧
      body.shortened_text = "" ∧
      (shorten_sms r env (fun _ => Except.ok content) stats).2.1.total_sms_shortened
        = stats.total_sms_shortened + 1 := by
  have hst : (if r.max_chars < ((pyStrip (content.getD "")).data.length : Int)
      then pyRstrip ['.', ' ', ','] (pySliceTo (pyStrip (content.getD "")) r.max_chars)
      else pyStrip (content.getD "")) = "" := by
    rw [hc]
    split
    · rw [pySliceTo_empty, pyRstrip_empty]
    · rfl
  rw [shorten_sms_ok_eq r env content stats h]
  simp only [hst]
  exact ⟨_, rfl, rfl, trivial⟩

/-- C2, witness for the amended theorem: an oracle answering with the empty
string on a nonempty request. -/
theorem C2_empty_content_succeeds_witness :
    ∃ body : OkBody,
      (shorten_sms (mkReq "Hello" 160 "English") env0
        (fun _ => Except.ok (some "")) stats0).1 = .ok body ∧
      body.shortened_text = "" ∧
      (shorten_sms (mkReq "Hello" 160 "English") env0
        (fun _ => Except.ok (some "")) stats0).2.1.total_sms_shortened
        = stats0.total_sms_shortened + 1 :=
  C2_empty_content_succeeds (mkReq "Hello" 160 "English") env0 (some "") stats0
    (by decide) (by decide)

/-- C6: for every successful request (the spec's data model takes `max_chars`
positive) with `target_language = "English"`, the final text is capped:
`shortened_length` equals the length of `shortened_text`, that length is at
most `max_chars`, and an over-long candidate is truncated to `max_chars`
characters and stripped of trailing `.`, space, `,`. -/
theorem C6_english_cap (r : SmsRequest) (env : String → Option HttpResult)
    (content : Option String) (stats : Stats)
    (hlang : r.target_language = "English") (hpos : 0 < r.max_chars)
    (htext : r.text ≠ "") :
    ∃ body : OkBody,
      (shorten_sms r env (fun _ => Except.ok content) stats).1 = .ok body ∧
      body.shortened_length = body.shortened_text.data.length ∧
      (body.shortened_text.data.length : Int) ≤ r.max_chars ∧
      (r.max_chars < ((pyStrip (content.getD "")).data.length : Int) →
        body.shortened_text
          = pyRstrip ['.', ' ', ','] (pySliceTo (pyStrip (content.getD "")) r.max_chars)) := by
  rw [shorten_sms_ok_eq r env content stats htext]
  by_cases hmc : r.max_chars < ((pyStrip (content.getD "")).data.length : Int)
  · simp only [if_pos hmc]
    refine ⟨_, rfl, rfl, ?_, fun _ => rfl⟩
    calc ((pyRstrip ['.', ' ', ','] (pySliceTo (pyStrip (content.getD "")) r.max_chars)).data.length : Int)
        ≤ ((pySliceTo (pyStrip (content.getD "")) r.max_chars).data.length : Int) := by
          exact_mod_cast pyRstrip_length_le _ _
      _ ≤ r.max_chars := pySliceTo_length_le _ _ (le_of_lt hpos)
  · simp only [if_neg hmc]
    exact ⟨_, rfl, rfl, not_lt.mp hmc, fun hx => absurd hx hmc⟩

/-- C6, witness: budget 5, English, oracle candidate of length 17. -/
theorem C6_english_cap_witness :
    ∃ body : OkBody,
      (shorten_sms (mkReq "Hello there friend" 5 "English") env0
        (fun _ => Except.ok (some "Hello there, yes.")) stats0).1 = .ok body ∧
      body.shortened_length = body.shortened_text.data.length ∧
      (body.shortened_text.data.length : Int)
        ≤ (mkReq "Hello there friend" 5 "English").max_chars ∧
      ((mkReq "Hello there friend" 5 "English").max_chars
          < ((pyStrip ((some "Hello there, yes." : Option String).getD "")).data.length : Int) →
        body.shortened_text
          = pyRstrip ['.', ' ', ',']
              (pySliceTo (pyStrip ((some "Hello there, yes." : Option String).getD ""))
                (mkReq "Hello there friend" 5 "English").max_chars)) :=
  C6_english_cap (mkReq "Hello there friend" 5 "English") env0
    (some "Hello there, yes.") stats0 (by decide) (by decide) (by decide)

/-- C8: the ledger is updated exactly on full success — an empty-text request
is rejected with a 400 before any processing (stats unchanged, no shortener
calls), every error response leaves the stats unchanged, and every success
response increments the request counter; there is no partial-success path. -/
theorem C8_ledger_discipline (r : SmsRequest) (env : String → Option HttpResult)
    (oracle : String → Except String (Option String)) (stats : Stats) :
    (r.text = "" →
      shorten_sms r env oracle stats = (.err 400 "No text provided", stats, [])) ∧
    (isError (shorten_sms r env oracle stats).1 = true →
      (shorten_sms r env oracle stats).2.1 = stats) ∧
    (isError (shorten_sms r env oracle stats).1 = false →
      (shorten_sms r env oracle stats).2.1.total_sms_shortened
        = stats.total_sms_shortened + 1) := by
  by_cases h : r.text = ""
  · refine ⟨fun _ => by simp [shorten_sms, h], fun _ => by simp [shorten_sms, h],
      fun hfalse => ?_⟩
    rw [show shorten_sms r env oracle stats
        = (.err 400 "No text provided", stats, []) from by simp [shorten_sms, h]]
      at hfalse
    simp [isError] at hfalse
  · refine ⟨fun hx => absurd hx h, ?_⟩
    rcases shorten_sms_oracle_cases r env oracle stats h with ⟨e, heq⟩ | ⟨c, heq⟩
    · rw [heq, shorten_sms_error_eq r env e stats h]
      exact ⟨fun _ => rfl, fun hh => by simp [isError] at hh⟩
    · rw [heq, shorten_sms_ok_eq r env c stats h]
      exact ⟨fun hh => by simp [isError] at hh, fun _ => rfl⟩

/-- C8, witness: an empty-text request is rejected untouched; an oracle
failure leaves the stats unchanged; a success increments the counter. -/
theorem C8_ledger_discipline_witness :
    shorten_sms (mkReq "" 160 "English") env0
        (fun _ => Except.error "boom") stats0
      = (.err 400 "No text provided", stats0, []) ∧
    (shorten_sms (mkReq "Hi" 160 "English") env0
        (fun _ => Except.error "boom") stats0).2.1 = stats0 ∧
    (shorten_sms (mkReq "Hi" 160 "English") env0
        (fun _ => Except.ok (some "ok")) stats0).2.1.total_sms_shortened
      = stats0.total_sms_shortened + 1 :=
  ⟨(C8_ledger_discipline (mkReq "" 160 "English") env0
      (fun _ => Except.error "boom") stats0).1 rfl,
   (C8_ledger_discipline (mkReq "Hi" 160 "English") env0
      (fun _ => Except.error "boom") stats0).2.1 (by decide),
   (C8_ledger_discipline (mkReq "Hi" 160 "English") env0
      (fun _ => Except.ok (some "ok")) stats0).2.2 (by decide)⟩

/-- C9: every failure mode of the shortening oracle is recovered locally —
a raised exception, a non-200 status, and a body not starting with `"http"`
all make `shorten_single_url` return the original URL unchanged; and when
every shortening call fails, the whole text survives `shorten_urls_in_text`
unmodified, so the request is never aborted. -/
theorem C9_shortener_fallback :
    (∀ url : String, shorten_single_url none url = url) ∧
    (∀ (url : String) (hr : HttpResult), hr.status ≠ 200 →
      shorten_single_url (some hr) url = url) ∧
    (∀ (url : String) (hr : HttpResult),
      List.isPrefixOf "http".data hr.text.data = false →
      shorten_single_url (some hr) url = url) ∧
    (∀ (text : String) (env : String → Option HttpResult),
      (∀ u, env u = none) → (shorten_urls_in_text env text).1 = text) := by
  refine ⟨fun url => rfl, ?_, ?_, ?_⟩
  · intro url hr hst
    simp [shorten_single_url, shorten_with_isgd, hst]
  · intro url hr hpre
    simp [shorten_single_url, shorten_with_isgd, hpre]
  · intro text env henv
    show (⟨subUrlsF (fun u => (shorten_single_url (env ⟨u⟩) ⟨u⟩).data)
        text.data.length text.data⟩ : String) = text
    rw [subUrlsF_id _ (fun u => by rw [henv]; rfl)]

/-- C9, witness: a 500 response falls back to the original URL, and with a
dead shortener the text passes through unchanged. -/
theorem C9_shortener_fallback_witness :
    shorten_single_url (some ⟨500, "error"⟩) "https://a.com" = "https://a.com" ∧
    (shorten_urls_in_text env0 "Visit https://a.com now").1
      = "Visit https://a.com now" :=
  ⟨C9_shortener_fallback.2.1 "https://a.com" ⟨500, "error"⟩ (by decide),
   C9_shortener_fallback.2.2.2 "Visit https://a.com now" env0 (fun _ => rfl)⟩

/-- C10: `max_chars` is never validated — any request with nonempty text and a
zero or negative `max_chars` still reaches the oracle and, on oracle success,
produces a success response, not a validation error. -/
theorem C10_no_max_chars_validation (r : SmsRequest)
    (env : String → Option HttpResult) (content : Option String)
    (stats : Stats) (htext : r.text ≠ "") (hmc : r.max_chars ≤ 0) :
    isError (shorten_sms r env (fun _ => Except.ok content) stats).1 = false := by
  rw [shorten_sms_ok_eq r env content stats htext]
  rfl

/-- C10, witness: `max_chars = -3` is accepted without a validation error. -/
theorem C10_no_max_chars_validation_witness :
    isError (shorten_sms (mkReq "Hello" (-3) "English") env0
      (fun _ => Except.ok (some "Hi there")) stats0).1 = false :=
  C10_no_max_chars_validation (mkReq "Hello" (-3) "English") env0
    (some "Hi there") stats0 (by decide) (by decide)
